import Mathlib

/-
Shallow embedding of envlight/light.py (class EnvLight and the two module
level constructors).  The external collaborators of light.py — imageio,
torch helpers, the latlong/cubemap converters from .utils and the filter
kernels from .renderutils, plus the dr.texture sampling primitive — are not
part of the source under verification; they are represented by an abstract
Runtime record whose proof fields carry the contracts the specification
assigns to them.  The EnvLight instance state is threaded explicitly;
Python exceptions are modelled by an error flag next to the state reached
at the point the exception is raised (Python methods mutate attributes as
they go, so a raised exception leaves earlier mutations in place).
-/

set_option autoImplicit false

namespace EnvLight

/-- A cubemap tensor of shape (6, res, res, 3): six square faces at a
common face resolution.  Texel contents are abstracted by the payload
type D; res records the face resolution (shape[1]). -/
structure Cubemap (D : Type) where
  res : Nat
  data : D
deriving DecidableEq

/-- A torch.nn.Parameter wrapping a cubemap: assignment through .data
replaces the contents while the parameter object, and in particular its
requires_grad flag, persists. -/
structure Param (D : Type) where
  data : Cubemap D
  requires_grad : Bool
deriving DecidableEq

/-- The constructor configuration of EnvLight (light.py lines 25-33). -/
structure Config where
  scale : ℚ
  min_res : Nat
  max_res : Nat
  min_roughness : ℚ
  max_roughness : ℚ
  trainable : Bool
deriving DecidableEq

/-- Python exceptions the code in light.py can raise: comparing None with a
float (TypeError), integer 0 / 0 (ZeroDivisionError), reading a never
assigned attribute (AttributeError), a failing image decode, and a failure
inside the external latlong-to-cubemap projection. -/
inductive Err where
  | typeError
  | zeroDivision
  | attributeError
  | decodeError
  | projectionError
deriving DecidableEq

/-- A texture lookup performed through the external dr.texture primitive:
light.py calls it once in _forward_diffuse and once in _forward_specular. -/
inductive TexEvent where
  | diffuseTex
  | specularTex
deriving DecidableEq

/-- Mutable attribute state of an EnvLight instance: the base cubemap
parameter, the cached latlong image (none until load or gen_base_image
assigns it), and the derived specular mip chain and diffuse map (the empty
list and none stand for the attributes not having been assigned yet). -/
structure State (D I : Type) where
  cfg : Config
  base : Param D
  base_image : Option I
  specular : List (Cubemap D)
  diffuse : Option (Cubemap D)
deriving DecidableEq

/-- Result of a stateful method: the attribute state reached when the
method returns or raises, and the exception raised, if any. -/
structure OpResult (D I : Type) where
  state : State D I
  err : Option Err
deriving DecidableEq

/-- Result of EnvLight.__call__: final state, exception if any, the pair
(diffuse_light, specular_light) on success, and the dr.texture lookups
performed before returning or raising. -/
structure CallResult (D I O : Type) where
  state : State D I
  err : Option Err
  output : Option (O × O)
  events : List TexEvent
deriving DecidableEq

/-- Modelled from the spec: the external collaborators of light.py that are
not part of the source file (imageio decoding, torch tensor helpers, the
latlong/cubemap converters of .utils, the prefilter kernels of
.renderutils and the dr.texture sampler).  They are abstract functions
over abstract payload types D (cubemap contents), I (latlong images),
V (direction batches) and O (radiance outputs).  The proof fields record
the contracts the spec states for them: cubemap_mip halves the face
resolution, and projections and initializers return cubemaps at the
requested face resolution. -/
structure Runtime (D I V O : Type) where
  cubemap_mip : Cubemap D → Cubemap D
  mip_halves : ∀ c, (cubemap_mip c).res = c.res / 2
  diffuse_cubemap : Cubemap D → Cubemap D
  specular_cubemap : Cubemap D → ℚ → ℚ → Cubemap D
  specular_res : ∀ c r cut, (specular_cubemap c r cut).res = c.res
  latlong_to_cubemap : I → Nat → Option (Cubemap D)
  latlong_res : ∀ i r c, latlong_to_cubemap i r = some c → c.res = r
  cubemap_to_latlong : Cubemap D → Nat × Nat → I
  roll : I → ℤ → I
  imread : String → Option (I × Bool)
  convert : I → I
  smul : ℚ → I → I
  texture_d : Cubemap D → V → O
  texture_s : List (Cubemap D) → V → ℚ → O
  rand_cubemap : Nat → ℚ → ℚ → Cubemap D
  rand_res : ∀ r s b, (rand_cubemap r s b).res = r
  full_cubemap : Nat → ℚ → Cubemap D
  full_res : ∀ r v, (full_cubemap r v).res = r

variable {D I V O : Type}

/-- Texel formula of create_trainable_env_rnd (light.py lines 6-12): a
uniform sample u i scaled and biased, elementwise over the index type of
the (6, base_res, base_res, 3) tensor. -/
def create_trainable_env_rnd {ι : Type} (u : ι → ℚ) (scale bias : ℚ) : ι → ℚ :=
  fun i => u i * scale + bias

/-- Default scale argument of create_trainable_env_rnd; EnvLight.__init__
passes only base_res and device, so this default is used. -/
def rnd_default_scale : ℚ := 0

/-- Default bias argument of create_trainable_env_rnd; EnvLight.__init__
passes only base_res and device, so this default is used. -/
def rnd_default_bias : ℚ := 1/2

/-- Default cutoff argument of EnvLight.build_mips (light.py line 79). -/
def cutoff_default : ℚ := 99/100

/-- The raw mip chain built by the while loop of build_mips (light.py
lines 81-83): start from the base cubemap and append cubemap_mip of the
last level while the last level's face resolution exceeds min_res. -/
def mipChain (rt : Runtime D I V O) (c : Cubemap D) (m : Nat) : List (Cubemap D) :=
  if _h : m < c.res then
    c :: mipChain rt (rt.cubemap_mip c) m
  else
    [c]
termination_by c.res
decreasing_by
  rw [rt.mip_halves]
  omega

/-- The face resolutions along the mip chain, as a standalone recursion on
numbers: from r, halve while above m. -/
def resList (r m : Nat) : List Nat :=
  if h : m < r then
    r :: resList (r / 2) m
  else
    [r]
termination_by r
decreasing_by
  omega

/-- Roughness assigned to mip level idx of an M level chain by the loop of
build_mips (light.py line 88). -/
def mip_roughness (cfg : Config) (idx M : Nat) : ℚ :=
  ((idx : ℚ) / ((M : ℚ) - 2)) * (cfg.max_roughness - cfg.min_roughness) + cfg.min_roughness

/-- The per level specular prefiltering loop of build_mips (lines 87-91):
every level except the last is filtered at the interpolated roughness, the
last at roughness 1.0.  The counter i0 is the index of the head of l in
the full chain of M levels. -/
def specFilter (rt : Runtime D I V O) (cfg : Config) (cutoff : ℚ) (M : Nat) :
    Nat → List (Cubemap D) → List (Cubemap D)
  | _, [] => []
  | i0, c :: rest =>
      (if i0 = M - 1 then rt.specular_cubemap c 1 cutoff
       else rt.specular_cubemap c (mip_roughness cfg i0 M) cutoff) ::
        specFilter rt cfg cutoff M (i0 + 1) rest

/-- EnvLight.build_mips (light.py lines 79-91).  The raw chain and the
diffuse map are assigned first; when the chain has exactly two levels the
first loop iteration evaluates 0 / 0 on integers and raises
ZeroDivisionError, leaving the raw chain and the diffuse map in place;
otherwise every level is replaced by its specular prefiltered version. -/
def build_mips_op (rt : Runtime D I V O) (st : State D I) (cutoff : ℚ) : OpResult D I :=
  let chain := mipChain rt st.base.data st.cfg.min_res
  let diff := rt.diffuse_cubemap (chain.getLastD st.base.data)
  if chain.length = 2 then
    ⟨{ st with specular := chain, diffuse := some diff }, some Err.zeroDivision⟩
  else
    ⟨{ st with specular := specFilter rt st.cfg cutoff chain.length 0 chain,
               diffuse := some diff }, none⟩

/-- EnvLight.load (light.py lines 60-69): decode the image (converting to
float32 range when needed), assign the scaled latlong image to base_image,
project it to a cubemap at max_res, and replace the base parameter's data.
A decode failure raises before any assignment; a projection failure raises
after base_image has already been replaced. -/
def load_op (rt : Runtime D I V O) (st : State D I) (path : String) : OpResult D I :=
  match rt.imread path with
  | none => ⟨st, some Err.decodeError⟩
  | some (img, isF32) =>
    let img1 := if isF32 then img else rt.convert img
    let bi := rt.smul st.cfg.scale img1
    match rt.latlong_to_cubemap bi st.cfg.max_res with
    | none => ⟨{ st with base_image := some bi }, some Err.projectionError⟩
    | some c => ⟨{ st with base_image := some bi,
                           base := { st.base with data := c } }, none⟩

/-- EnvLight.gen_base_image (light.py lines 71-72): cache the latlong
rendering of the current base at resolution 2048 x 4096. -/
def gen_base_image_op (rt : Runtime D I V O) (st : State D I) : State D I :=
  { st with base_image := some (rt.cubemap_to_latlong st.base.data (2048, 4096)) }

/-- EnvLight.update_light (light.py lines 74-77): roll the cached latlong
image along dim 1 (the azimuth axis), re-project it at max_res and replace
the base parameter's data.  Reading self.base_image when it was never
assigned raises AttributeError with nothing changed; a projection failure
raises after base_image has already been replaced by the rolled image. -/
def update_light_op (rt : Runtime D I V O) (st : State D I) (delta : ℤ) : OpResult D I :=
  match st.base_image with
  | none => ⟨st, some Err.attributeError⟩
  | some img =>
    let img1 := rt.roll img delta
    match rt.latlong_to_cubemap img1 st.cfg.max_res with
    | none => ⟨{ st with base_image := some img1 }, some Err.projectionError⟩
    | some c => ⟨{ st with base_image := some img1,
                           base := { st.base with data := c } }, none⟩

/-- The attribute state of a fresh EnvLight right before the optional load
and the initial build_mips (light.py lines 35-51): the base parameter is
created from the color preset or from create_trainable_env_rnd with its
default scale and bias, with requires_grad set to the trainable flag. -/
def init_state (rt : Runtime D I V O) (cfg : Config) (preset : Option ℚ) : State D I :=
  let init_value := match preset with
    | some v => rt.full_cubemap cfg.max_res v
    | none => rt.rand_cubemap cfg.max_res rnd_default_scale rnd_default_bias
  { cfg := cfg,
    base := { data := init_value, requires_grad := cfg.trainable },
    base_image := none,
    specular := [],
    diffuse := none }

/-- EnvLight.__init__ (light.py lines 25-57): build the initial base, load
from the path when one is given, then build the mip chain once. -/
def init_op (rt : Runtime D I V O) (cfg : Config) (path : Option String)
    (preset : Option ℚ) : OpResult D I :=
  match path with
  | none => build_mips_op rt (init_state rt cfg preset) cutoff_default
  | some p =>
    match load_op rt (init_state rt cfg preset) p with
    | ⟨st1, some e⟩ => ⟨st1, some e⟩
    | ⟨st1, none⟩ => build_mips_op rt st1 cutoff_default

/-- torch.clamp on rationals: clamp x into the interval from lo to hi. -/
def qclamp (x lo hi : ℚ) : ℚ := min (max x lo) hi

/-- The branch of EnvLight.get_mip taken when roughness < max_roughness
(light.py line 100). -/
def get_mip_lo (cfg : Config) (M : Nat) (r : ℚ) : ℚ :=
  (qclamp r cfg.min_roughness cfg.max_roughness - cfg.min_roughness) /
      (cfg.max_roughness - cfg.min_roughness) * ((M : ℚ) - 2)

/-- The branch of EnvLight.get_mip taken when roughness ≥ max_roughness
(light.py line 101). -/
def get_mip_hi (cfg : Config) (M : Nat) (r : ℚ) : ℚ :=
  (qclamp r cfg.max_roughness 1 - cfg.max_roughness) / (1 - cfg.max_roughness) +
    ((M : ℚ) - 2)

/-- EnvLight.get_mip (light.py lines 94-102), elementwise on a roughness
value, with M the length of self.specular. -/
def get_mip (cfg : Config) (M : Nat) (r : ℚ) : ℚ :=
  if r < cfg.max_roughness then get_mip_lo cfg M r else get_mip_hi cfg M r

/-- EnvLight._forward_diffuse (light.py lines 116-127): one dr.texture
lookup into the diffuse map; reading self.diffuse when it was never
assigned raises AttributeError. -/
def forward_diffuse (rt : Runtime D I V O) (st : State D I) (l : V) :
    Except Err O × List TexEvent :=
  match st.diffuse with
  | none => (Except.error Err.attributeError, [])
  | some dm => (Except.ok (rt.texture_d dm l), [TexEvent.diffuseTex])

/-- EnvLight._forward_specular (light.py lines 129-150).  get_mip runs
first and its first evaluated expression compares roughness with the float
max_roughness, so a missing roughness (None) raises TypeError there before
anything else; then get_mip reads len(self.specular), raising
AttributeError when the chain was never assigned; only then the dr.texture
lookup against the mip chain happens. -/
def forward_specular (rt : Runtime D I V O) (st : State D I) (l : V) (ρ : Option ℚ) :
    Except Err O × List TexEvent :=
  match ρ with
  | none => (Except.error Err.typeError, [])
  | some r =>
    match st.specular with
    | [] => (Except.error Err.attributeError, [])
    | s0 :: rest =>
      (Except.ok (rt.texture_s (s0 :: rest) l (get_mip st.cfg (s0 :: rest).length r)),
       [TexEvent.specularTex])

/-- EnvLight.__call__ (light.py lines 105-114): when trainable, rebuild
the mip chain from the current base first; then evaluate the diffuse
lookup and the specular lookup, in that order. -/
def call_op (rt : Runtime D I V O) (st : State D I) (n refl : V) (ρ : Option ℚ) :
    CallResult D I O :=
  let pre := if st.cfg.trainable then build_mips_op rt st cutoff_default
             else ⟨st, none⟩
  match pre.err with
  | some e => ⟨pre.state, some e, none, []⟩
  | none =>
    let fd := forward_diffuse rt pre.state n
    match fd.1 with
    | Except.error e => ⟨pre.state, some e, none, fd.2⟩
    | Except.ok dL =>
      let fs := forward_specular rt pre.state refl ρ
      match fs.1 with
      | Except.error e => ⟨pre.state, some e, none, fd.2 ++ fs.2⟩
      | Except.ok sL => ⟨pre.state, none, some (dL, sL), fd.2 ++ fs.2⟩

/-- EnvLight.get_env_map (light.py lines 152-154): latlong rendering of
the current base at 512 x 1024, leaving the state unchanged. -/
def get_env_map_op (rt : Runtime D I V O) (st : State D I) : I :=
  rt.cubemap_to_latlong st.base.data (512, 1024)

/-- One mutating method call on an EnvLight instance: load, update_light,
or build_mips with a chosen cutoff. -/
inductive EnvOp where
  | load (path : String)
  | update (delta : ℤ)
  | build (cutoff : ℚ)

/-- Run one method call, keeping the state it leaves behind whether it
returns or raises (a raising method has already applied its earlier
attribute mutations). -/
def envOpRun (rt : Runtime D I V O) (st : State D I) : EnvOp → State D I
  | EnvOp.load p => (load_op rt st p).state
  | EnvOp.update δ => (update_light_op rt st δ).state
  | EnvOp.build cut => (build_mips_op rt st cut).state

/-- Run a sequence of method calls from a given state. -/
def envOpsRun (rt : Runtime D I V O) : State D I → List EnvOp → State D I
  | st, [] => st
  | st, op :: rest => envOpsRun rt (envOpRun rt st op) rest

/-- A concrete runtime over numeric payloads, used to evaluate the model
on explicit inputs: cubemap payloads and latlong images are numbers,
direction batches and radiance outputs are trivial.  Downsampling keeps
the payload, the diffuse filter adds 100, the specular filter adds 1, the
projection tags the image with the requested resolution, rolling adds 1,
and decoding always yields the float32 image 5. -/
def rtC : Runtime Nat Nat Unit Unit where
  cubemap_mip c := ⟨c.res / 2, c.data⟩
  mip_halves _ := rfl
  diffuse_cubemap c := ⟨c.res, c.data + 100⟩
  specular_cubemap c _ _ := ⟨c.res, c.data + 1⟩
  specular_res _ _ _ := rfl
  latlong_to_cubemap i r := some ⟨r, i⟩
  latlong_res := by
    intro i r c h
    cases h
    rfl
  cubemap_to_latlong c _ := c.data
  roll i _ := i + 1
  imread _ := some (5, true)
  convert i := i
  smul _ i := i
  texture_d _ _ := ()
  texture_s _ _ _ := ()
  rand_cubemap r _ _ := ⟨r, 0⟩
  rand_res _ _ _ := rfl
  full_cubemap r _ := ⟨r, 0⟩
  full_res _ _ := rfl

/-- The concrete runtime with a latlong-to-cubemap projection that always
fails, to exercise the projection-failure path of load. -/
def rtC6 : Runtime Nat Nat Unit Unit :=
  { rtC with
    latlong_to_cubemap := fun _ _ => none
    latlong_res := by
      intro i r c h
      exact Option.noConfusion h }

/-- A small non trainable configuration: face resolution 16 down to 4,
roughness bounds 0.08 and 0.5, scale 1. -/
def cfgN : Config := ⟨1, 4, 16, 8/100, 1/2, false⟩

/-- The same configuration marked trainable. -/
def cfgT : Config := { cfgN with trainable := true }

/-- A configuration whose base resolution equals min_res, so that the mip
chain stops immediately with a single level. -/
def cfgOne : Config := ⟨1, 16, 16, 8/100, 1/2, false⟩

/-- A concrete path argument. -/
def somePath : String := "env.hdr"

/-- An explicit built specular chain over rtC for the 16-to-4
configuration: the raw chain over base payload 0 after the per level
specular prefilter pass (the concrete filter adds 1 to the payload). -/
def chainN : List (Cubemap Nat) := [⟨16, 1⟩, ⟨8, 1⟩, ⟨4, 1⟩]

/-- An explicit non trainable EnvLight state over rtC with a built chain
and diffuse map and no cached latlong image. -/
def stN : State Nat Nat := ⟨cfgN, ⟨⟨16, 0⟩, false⟩, none, chainN, some ⟨4, 100⟩⟩

/-- The analogous trainable state. -/
def stT : State Nat Nat := ⟨cfgT, ⟨⟨16, 0⟩, true⟩, none, chainN, some ⟨4, 100⟩⟩

/-- An EnvLight state for the single-level configuration: base resolution
equals min_res, so its built chain is one level long. -/
def stOne : State Nat Nat := ⟨cfgOne, ⟨⟨16, 0⟩, false⟩, none, [⟨16, 1⟩], some ⟨16, 100⟩⟩

/-- The resolution list is never empty. -/
theorem resList_ne_nil (r m : Nat) : resList r m ≠ [] := by
  rw [resList]
  split
  · exact List.cons_ne_nil _ _
  · exact List.cons_ne_nil _ _

/-- The resolution list starts with the base resolution. -/
theorem resList_head (r m : Nat) : (resList r m).head? = some r := by
  rw [resList]
  split <;> rfl

/-- The face resolutions of the raw mip chain follow resList (uses the
contract that cubemap_mip halves the face resolution). -/
theorem mipChain_map_res (rt : Runtime D I V O) (c : Cubemap D) (m : Nat) :
    (mipChain rt c m).map (fun x => x.res) = resList c.res m := by
  by_cases h : m < c.res
  · rw [mipChain, resList, dif_pos h, dif_pos h, List.map_cons,
      mipChain_map_res rt (rt.cubemap_mip c) m, rt.mip_halves]
  · rw [mipChain, resList, dif_neg h, dif_neg h, List.map_cons, List.map_nil]
termination_by c.res
decreasing_by
  rw [rt.mip_halves]
  omega

/-- Consecutive resolutions in the chain: each next one is the floor half
of the previous and strictly smaller. -/
theorem resList_chain (r m : Nat) :
    List.Chain' (fun x y => y = x / 2 ∧ y < x) (resList r m) := by
  by_cases h : m < r
  · rw [resList, dif_pos h, List.chain'_cons']
    refine ⟨?_, resList_chain (r / 2) m⟩
    intro y hy
    rw [resList_head] at hy
    simp only [Option.mem_def, Option.some_inj] at hy
    subst hy
    exact ⟨rfl, by omega⟩
  · rw [resList, dif_neg h]
    exact List.chain'_singleton _
termination_by r
decreasing_by
  omega

/-- Every level before the last has resolution above min_res (the loop
condition is checked before each downsample). -/
theorem resList_dropLast_gt (r m : Nat) :
    ∀ x ∈ (resList r m).dropLast, m < x := by
  by_cases h : m < r
  · rw [resList, dif_pos h, List.dropLast_cons_of_ne_nil (resList_ne_nil _ _)]
    intro x hx
    rcases List.mem_cons.mp hx with h1 | h2
    · omega
    · exact resList_dropLast_gt (r / 2) m x h2
  · rw [resList, dif_neg h]
    intro x hx
    simp at hx
termination_by r
decreasing_by
  omega

/-- The last appended level has resolution at most min_res. -/
theorem resList_getLastD_le (r m : Nat) : ∀ d, (resList r m).getLastD d ≤ m := by
  intro d
  by_cases h : m < r
  · rw [resList, dif_pos h, List.getLastD_cons d r (resList (r / 2) m)]
    exact resList_getLastD_le (r / 2) m r
  · rw [resList, dif_neg h]
    simpa using Nat.le_of_not_lt h
termination_by r
decreasing_by
  omega

/-- When the base resolution and min_res are powers of two with the base
strictly larger, the chain has one level per halving step plus the base. -/
theorem resList_pow_length (b k : Nat) :
    (resList (2 ^ (b + k)) (2 ^ b)).length = k + 1 := by
  induction k with
  | zero =>
    rw [Nat.add_zero, resList, dif_neg (lt_irrefl _)]
    rfl
  | succ k ih =>
    have hlt : 2 ^ b < 2 ^ (b + (k + 1)) :=
      Nat.pow_lt_pow_right (by omega) (by omega)
    have hdiv : 2 ^ (b + (k + 1)) / 2 = 2 ^ (b + k) := by
      rw [show b + (k + 1) = (b + k) + 1 by omega, Nat.pow_succ,
        Nat.mul_div_cancel _ (by omega)]
    rw [resList, dif_pos hlt, List.length_cons, hdiv, ih]

/-- Base-two logarithm of a power of two. -/
theorem log2_pow (k : Nat) : Nat.log2 (2 ^ k) = k := by
  rw [Nat.log2_eq_log_two, Nat.log_pow (by omega)]

/-- The specular prefiltering pass keeps the number of levels. -/
theorem specFilter_length (rt : Runtime D I V O) (cfg : Config) (cut : ℚ) (M : Nat) :
    ∀ i0 (l : List (Cubemap D)), (specFilter rt cfg cut M i0 l).length = l.length := by
  intro i0 l
  induction l generalizing i0 with
  | nil => rfl
  | cons c rest ih =>
    rw [specFilter, List.length_cons, List.length_cons, ih]

/-- The length of the specular chain produced by build_mips equals the
length of the raw mip chain, on the success path and on the
ZeroDivisionError path alike. -/
theorem build_mips_length (rt : Runtime D I V O) (st : State D I) (cut : ℚ) :
    (build_mips_op rt st cut).state.specular.length =
      (mipChain rt st.base.data st.cfg.min_res).length := by
  rw [build_mips_op]
  split
  · rfl
  · exact specFilter_length rt st.cfg cut _ 0 _

/-- C3: for a base cubemap of face resolution B = 2 ^ a and min_res
m = 2 ^ b with B > m, and with the external cubemap_mip step halving the
face resolution (a contract field of the runtime), build_mips produces a
mip chain of exactly floor(log2(B / m)) + 1 levels; the resolutions
strictly decrease by halving, the loop tests resolution > min_res before
each downsample (every level but the last is above min_res) and the last
appended level has resolution at most min_res. -/
theorem build_mips_chain_length (rt : Runtime D I V O) (st : State D I) (a b : Nat)
    (hB : st.base.data.res = 2 ^ a) (hm : st.cfg.min_res = 2 ^ b) (hab : b < a) :
    (mipChain rt st.base.data st.cfg.min_res).length =
      Nat.log2 (st.base.data.res / st.cfg.min_res) + 1 ∧
    (build_mips_op rt st cutoff_default).state.specular.length =
      Nat.log2 (st.base.data.res / st.cfg.min_res) + 1 ∧
    List.Chain' (fun x y => y = x / 2 ∧ y < x)
      ((mipChain rt st.base.data st.cfg.min_res).map (fun c => c.res)) ∧
    (∀ x ∈ ((mipChain rt st.base.data st.cfg.min_res).map (fun c => c.res)).dropLast,
      st.cfg.min_res < x) ∧
    ((mipChain rt st.base.data st.cfg.min_res).map (fun c => c.res)).getLastD 0 ≤
      st.cfg.min_res := by
  have hmap := mipChain_map_res rt st.base.data st.cfg.min_res
  have hlen : (mipChain rt st.base.data st.cfg.min_res).length =
      Nat.log2 (st.base.data.res / st.cfg.min_res) + 1 := by
    have h1 : (mipChain rt st.base.data st.cfg.min_res).length =
        (resList st.base.data.res st.cfg.min_res).length := by
      rw [← hmap, List.length_map]
    rw [h1, hB, hm, Nat.pow_div (by omega) (by omega), log2_pow]
    rw [show (2 : Nat) ^ a = 2 ^ (b + (a - b)) by rw [Nat.add_sub_cancel' hab.le]]
    exact resList_pow_length b (a - b)
  refine ⟨hlen, ?_, ?_, ?_, ?_⟩
  · rw [build_mips_length, hlen]
  · rw [hmap]
    exact resList_chain _ _
  · rw [hmap]
    exact resList_dropLast_gt _ _
  · rw [hmap]
    exact resList_getLastD_le _ _ 0

/-- Witness for C3 at the concrete runtime: base resolution 16 = 2 ^ 4,
min_res 4 = 2 ^ 2, giving a chain of log2 4 + 1 = 3 levels. -/
theorem build_mips_chain_length_app :
    (mipChain rtC (⟨16, 0⟩ : Cubemap Nat) (4 : Nat)).length =
      Nat.log2 (16 / 4) + 1 := by
  have h := build_mips_chain_length rtC
    (⟨cfgN, ⟨⟨16, 0⟩, false⟩, none, [], none⟩ : State Nat Nat) 4 2
    (by rfl) (by rfl) (by omega)
  exact h.1

/-- C2 (amended: the containment of the result in [0, M - 1] additionally
needs the chain to have at least two levels; for a single-level chain
get_mip can return -1).  For min_roughness < max_roughness < 1 and a chain
of M ≥ 2 levels: get_mip is 0 for roughness at most min_roughness, both
branches agree at roughness = max_roughness with value M - 2, the value at
roughness 1 is M - 1, and every input lands in [0, M - 1]. -/
theorem get_mip_piecewise_linear (cfg : Config) (M : Nat)
    (h1 : cfg.min_roughness < cfg.max_roughness) (h2 : cfg.max_roughness < 1)
    (hM : 2 ≤ M) :
    (∀ r, r ≤ cfg.min_roughness → get_mip cfg M r = 0) ∧
    (get_mip_lo cfg M cfg.max_roughness = (M : ℚ) - 2 ∧
     get_mip_hi cfg M cfg.max_roughness = (M : ℚ) - 2 ∧
     get_mip cfg M cfg.max_roughness = (M : ℚ) - 2) ∧
    get_mip cfg M 1 = (M : ℚ) - 1 ∧
    (∀ r, 0 ≤ get_mip cfg M r ∧ get_mip cfg M r ≤ (M : ℚ) - 1) := by
  have hM' : (2 : ℚ) ≤ (M : ℚ) := by exact_mod_cast hM
  have hd1 : (0 : ℚ) < cfg.max_roughness - cfg.min_roughness := by linarith
  have hd2 : (0 : ℚ) < 1 - cfg.max_roughness := by linarith
  have hhi : get_mip_hi cfg M cfg.max_roughness = (M : ℚ) - 2 := by
    rw [get_mip_hi, qclamp, max_self, min_eq_left h2.le, sub_self, zero_div,
      zero_add]
  refine ⟨?_, ⟨?_, hhi, ?_⟩, ?_, ?_⟩
  · intro r hr
    rw [get_mip, if_pos (lt_of_le_of_lt hr h1), get_mip_lo, qclamp,
      max_eq_right hr, min_eq_left h1.le, sub_self, zero_div, zero_mul]
  · rw [get_mip_lo, qclamp, max_eq_left h1.le, min_self,
      div_self (ne_of_gt hd1), one_mul]
  · rw [get_mip, if_neg (lt_irrefl _)]
    exact hhi
  · rw [get_mip, if_neg (not_lt.mpr h2.le), get_mip_hi, qclamp,
      max_eq_left h2.le, min_self, div_self (ne_of_gt hd2)]
    ring
  · intro r
    rw [get_mip]
    split
    · rw [get_mip_lo, qclamp]
      have hc1 : cfg.min_roughness ≤ min (max r cfg.min_roughness) cfg.max_roughness :=
        le_min (le_max_right _ _) h1.le
      have hc2 : min (max r cfg.min_roughness) cfg.max_roughness ≤ cfg.max_roughness :=
        min_le_right _ _
      have ht0 : 0 ≤ (min (max r cfg.min_roughness) cfg.max_roughness -
          cfg.min_roughness) / (cfg.max_roughness - cfg.min_roughness) :=
        div_nonneg (by linarith) hd1.le
      have ht1 : (min (max r cfg.min_roughness) cfg.max_roughness -
          cfg.min_roughness) / (cfg.max_roughness - cfg.min_roughness) ≤ 1 :=
        (div_le_one hd1).mpr (by linarith)
      constructor
      · exact mul_nonneg ht0 (by linarith)
      · have hb := mul_le_of_le_one_left (show (0 : ℚ) ≤ (M : ℚ) - 2 by linarith) ht1
        linarith
    · rw [get_mip_hi, qclamp]
      have hc1 : cfg.max_roughness ≤ min (max r cfg.max_roughness) 1 :=
        le_min (le_max_right _ _) h2.le
      have hc2 : min (max r cfg.max_roughness) 1 ≤ 1 := min_le_right _ _
      have hs0 : 0 ≤ (min (max r cfg.max_roughness) 1 - cfg.max_roughness) /
          (1 - cfg.max_roughness) := div_nonneg (by linarith) hd2.le
      have hs1 : (min (max r cfg.max_roughness) 1 - cfg.max_roughness) /
          (1 - cfg.max_roughness) ≤ 1 := (div_le_one hd2).mpr (by linarith)
      constructor
      · linarith
      · linarith

/-- Witness for C2 at the 16-to-4 configuration with a 3 level chain: the
mip level of roughness 0.7 lies in [0, 2]. -/
theorem get_mip_piecewise_linear_app :
    (0 : ℚ) ≤ get_mip cfgN 3 (7/10) ∧ get_mip cfgN 3 (7/10) ≤ (3 : ℚ) - 1 := by
  have h := get_mip_piecewise_linear cfgN 3 (by norm_num [cfgN]) (by norm_num [cfgN])
    (by omega)
  exact h.2.2.2 (7/10)

/-- Counterexample to C2 as stated: the build loop does produce a single
level chain when the base resolution does not exceed min_res (here 16 and
16, under valid roughness bounds 0.08 < 0.5 < 1), and for M = 1 the value
of get_mip at roughness = max_roughness is -1, outside [0, M - 1]. -/
theorem get_mip_single_level_below_zero :
    (mipChain rtC (⟨16, 0⟩ : Cubemap Nat) (16 : Nat)).length = 1 ∧
    cfgOne.min_roughness < cfgOne.max_roughness ∧ cfgOne.max_roughness < 1 ∧
    get_mip cfgOne 1 cfgOne.max_roughness = -1 ∧
    ¬ (0 : ℚ) ≤ get_mip cfgOne 1 cfgOne.max_roughness := by
  refine ⟨?_, by norm_num [cfgOne], by norm_num [cfgOne], ?_, ?_⟩
  · rw [mipChain]
    rfl
  · norm_num [get_mip, get_mip_hi, qclamp, cfgOne]
  · norm_num [get_mip, get_mip_hi, qclamp, cfgOne]

/-- Element i of the specular prefiltering pass, as a function of element
i of the raw chain and the running index. -/
theorem specFilter_getElem (rt : Runtime D I V O) (cfg : Config) (cut : ℚ) (M : Nat) :
    ∀ i0 (l : List (Cubemap D)) (i : Nat), (specFilter rt cfg cut M i0 l)[i]? =
      (l[i]?).map (fun c =>
        if i0 + i = M - 1 then rt.specular_cubemap c 1 cut
        else rt.specular_cubemap c (mip_roughness cfg (i0 + i) M) cut) := by
  intro i0 l
  induction l generalizing i0 with
  | nil =>
    intro i
    rfl
  | cons c rest ih =>
    intro i
    cases i with
    | zero =>
      rw [specFilter]
      simp
    | succ j =>
      rw [specFilter, List.getElem?_cons_succ, List.getElem?_cons_succ, ih (i0 + 1) j,
        show i0 + 1 + j = i0 + (j + 1) by omega]

/-- C4 (amended: a chain of exactly 2 levels raises ZeroDivisionError on
the first loop iteration, while a single-level chain completes silently,
see the counterexample).  Under the precondition that the configuration
yields at least 3 levels, the divisor len(specular) - 2 is nonzero,
build_mips raises nothing, and every level except the last is filtered at
the interpolated roughness while the last is filtered at roughness 1.0;
with exactly 2 levels build_mips raises ZeroDivisionError. -/
theorem build_mips_roughness_schedule (rt : Runtime D I V O) (st : State D I) (cut : ℚ) :
    (3 ≤ (mipChain rt st.base.data st.cfg.min_res).length →
      (((mipChain rt st.base.data st.cfg.min_res).length : ℚ) - 2 ≠ 0) ∧
      (build_mips_op rt st cut).err = none ∧
      (∀ i c, (mipChain rt st.base.data st.cfg.min_res)[i]? = some c →
        (build_mips_op rt st cut).state.specular[i]? =
          some (if i = (mipChain rt st.base.data st.cfg.min_res).length - 1
                then rt.specular_cubemap c 1 cut
                else rt.specular_cubemap c
                  (mip_roughness st.cfg i
                    (mipChain rt st.base.data st.cfg.min_res).length) cut))) ∧
    ((mipChain rt st.base.data st.cfg.min_res).length = 2 →
      (build_mips_op rt st cut).err = some Err.zeroDivision) := by
  constructor
  · intro hM
    have hM2 : ¬ (mipChain rt st.base.data st.cfg.min_res).length = 2 := by omega
    refine ⟨?_, ?_, ?_⟩
    · have h3 : (3 : ℚ) ≤ ((mipChain rt st.base.data st.cfg.min_res).length : ℚ) := by
        exact_mod_cast hM
      intro h0
      linarith
    · simp only [build_mips_op, if_neg hM2]
    · intro i c hc
      simp only [build_mips_op, if_neg hM2]
      rw [specFilter_getElem rt st.cfg cut _ 0 _ i, hc]
      simp
  · intro hM
    simp only [build_mips_op, if_pos hM]

/-- Witness for C4 at the concrete 16-to-4 state, whose chain has 3
levels: build_mips raises nothing. -/
theorem build_mips_roughness_schedule_app :
    (build_mips_op rtC stN cutoff_default).err = none := by
  have h := build_mips_roughness_schedule rtC stN cutoff_default
  exact (h.1 (by simp [mipChain, rtC, stN, cfgN])).2.1

/-- Counterexample to C4 as stated: with base resolution equal to min_res
(16 and 16) the chain has a single level, fewer than 3, yet build_mips
completes without raising anything: the interpolation loop body never
runs, and the single level is filtered at roughness 1.0.  The
configuration is silently handled, not surfaced as an error. -/
theorem build_mips_one_level_silent :
    (mipChain rtC stOne.base.data stOne.cfg.min_res).length = 1 ∧
    (build_mips_op rtC stOne cutoff_default).err = none ∧
    (build_mips_op rtC stOne cutoff_default).state.specular =
      [(⟨16, 1⟩ : Cubemap Nat)] := by
  refine ⟨?_, ?_, ?_⟩
  · rw [mipChain]
    rfl
  · simp [build_mips_op, mipChain, rtC, stOne, cfgOne]
  · simp [build_mips_op, mipChain, specFilter, rtC, stOne, cfgOne]

/-- The state reached by __call__ is the one produced by the rebuild when
trainable, and the incoming state otherwise; the sampling phase never
mutates attributes. -/
theorem call_op_state (rt : Runtime D I V O) (st : State D I) (n refl : V)
    (ρ : Option ℚ) :
    (call_op rt st n refl ρ).state =
      (if st.cfg.trainable then build_mips_op rt st cutoff_default
       else ⟨st, none⟩).state := by
  simp only [call_op]
  repeat' split
  all_goals rfl

/-- build_mips reads only the base and the configuration: the incoming
derived chain and diffuse map are irrelevant to its result. -/
theorem build_mips_ignore_derived (rt : Runtime D I V O) (st : State D I)
    (s : List (Cubemap D)) (d : Option (Cubemap D)) (cut : ℚ) :
    build_mips_op rt { st with specular := s, diffuse := d } cut =
      build_mips_op rt st cut := rfl

/-- Explicit form of __call__ when the light is not trainable: no rebuild,
the state is returned unchanged in every arm. -/
theorem call_op_of_not_trainable (rt : Runtime D I V O) (st : State D I)
    (h : st.cfg.trainable = false) (n refl : V) (ρ : Option ℚ) :
    call_op rt st n refl ρ =
      match (forward_diffuse rt st n).1 with
      | Except.error e => ⟨st, some e, none, (forward_diffuse rt st n).2⟩
      | Except.ok dL =>
        match (forward_specular rt st refl ρ).1 with
        | Except.error e => ⟨st, some e, none,
            (forward_diffuse rt st n).2 ++ (forward_specular rt st refl ρ).2⟩
        | Except.ok sL => ⟨st, none, some (dL, sL),
            (forward_diffuse rt st n).2 ++ (forward_specular rt st refl ρ).2⟩ := by
  simp only [call_op, h, Bool.false_eq_true, if_false]

/-- C1: when trainable, __call__ first rebuilds the mip chain and diffuse
map from the current base (the resulting state is the build_mips state)
and its whole result is unaffected by whatever derived chain and diffuse
map were stored before the query, so queries bracketing a base mutation
reflect the latest base; when non trainable, __call__ leaves the state
(hence self.specular and self.diffuse) unchanged, and replacing the data
of base does not change the query's output or error until an explicit
build_mips call. -/
theorem call_rebuild_policy (rt : Runtime D I V O) (st : State D I)
    (s : List (Cubemap D)) (d : Option (Cubemap D)) (c : Cubemap D)
    (n refl : V) (ρ : Option ℚ) :
    (st.cfg.trainable = true →
      (call_op rt st n refl ρ).state = (build_mips_op rt st cutoff_default).state ∧
      call_op rt { st with specular := s, diffuse := d } n refl ρ =
        call_op rt st n refl ρ) ∧
    (st.cfg.trainable = false →
      (call_op rt st n refl ρ).state = st ∧
      (call_op rt { st with base := { st.base with data := c } } n refl ρ).output =
        (call_op rt st n refl ρ).output ∧
      (call_op rt { st with base := { st.base with data := c } } n refl ρ).err =
        (call_op rt st n refl ρ).err) := by
  constructor
  · intro h
    constructor
    · rw [call_op_state, if_pos h]
    · have hpre : ({ st with specular := s, diffuse := d } : State D I).cfg.trainable
          = true := h
      simp only [call_op, h, hpre, if_true, build_mips_ignore_derived]
  · intro h
    have h' : ({ st with base := { st.base with data := c } } : State D I).cfg.trainable
        = false := h
    have hfd : forward_diffuse rt { st with base := { st.base with data := c } } n
        = forward_diffuse rt st n := rfl
    have hfs : forward_specular rt { st with base := { st.base with data := c } } refl ρ
        = forward_specular rt st refl ρ := rfl
    have e1 := call_op_of_not_trainable rt st h n refl ρ
    have e2 := call_op_of_not_trainable rt
      { st with base := { st.base with data := c } } h' n refl ρ
    rw [hfd, hfs] at e2
    refine ⟨?_, ?_, ?_⟩
    · rw [call_op_state, if_neg (by simp [h])]
    · rw [e1, e2]
      cases (forward_diffuse rt st n).1 with
      | error e => rfl
      | ok dL =>
        cases (forward_specular rt st refl ρ).1 with
        | error e => rfl
        | ok sL => rfl
    · rw [e1, e2]
      cases (forward_diffuse rt st n).1 with
      | error e => rfl
      | ok dL =>
        cases (forward_specular rt st refl ρ).1 with
        | error e => rfl
        | ok sL => rfl

/-- Witness for C1: at the concrete non trainable state a query leaves the
state untouched, and at the concrete trainable state a query ends in the
rebuilt state. -/
theorem call_rebuild_policy_app :
    (call_op rtC stN () () (some (1/4))).state = stN ∧
    (call_op rtC stT () () (some (1/4))).state =
      (build_mips_op rtC stT cutoff_default).state := by
  exact ⟨((call_rebuild_policy rtC stN [] none ⟨16, 9⟩ () () (some (1/4))).2 rfl).1,
    ((call_rebuild_policy rtC stT [] none ⟨16, 9⟩ () () (some (1/4))).1 rfl).1⟩

/-- build_mips leaves the base parameter untouched, on the success path
and on the ZeroDivisionError path alike. -/
theorem build_mips_base (rt : Runtime D I V O) (st : State D I) (cut : ℚ) :
    (build_mips_op rt st cut).state.base = st.base ∧
    (build_mips_op rt st cut).state.cfg = st.cfg ∧
    (build_mips_op rt st cut).state.base_image = st.base_image := by
  rw [build_mips_op]
  split
  · exact ⟨rfl, rfl, rfl⟩
  · exact ⟨rfl, rfl, rfl⟩

/-- C5 (amended: load itself performs no rebuild - it leaves the derived
chain and diffuse map exactly as they were, stale with respect to the
newly loaded base; the rebuild only happens because the constructor calls
build_mips after load, so a caller invoking load outside the constructor
must rebuild explicitly). -/
theorem load_no_rebuild (rt : Runtime D I V O) (p : String) :
    (∀ (st st1 : State D I) (e : Option Err), load_op rt st p = ⟨st1, e⟩ →
      st1.specular = st.specular ∧ st1.diffuse = st.diffuse) ∧
    (∀ (cfg : Config) (preset : Option ℚ) (st1 : State D I),
      load_op rt (init_state rt cfg preset) p = ⟨st1, none⟩ →
      init_op rt cfg (some p) preset = build_mips_op rt st1 cutoff_default) := by
  constructor
  · intro st st1 e h
    rcases him : rt.imread p with _ | ⟨img, f⟩
    · simp only [load_op, him] at h
      cases h
      exact ⟨rfl, rfl⟩
    · simp only [load_op, him] at h
      rcases hll : rt.latlong_to_cubemap
          (rt.smul st.cfg.scale (if f then img else rt.convert img))
          st.cfg.max_res with _ | c
      · rw [hll] at h
        cases h
        exact ⟨rfl, rfl⟩
      · rw [hll] at h
        cases h
        exact ⟨rfl, rfl⟩
  · intro cfg preset st1 h
    simp only [init_op, h]

/-- Witness for C5: at the concrete runtime a successful load leaves the
previously built chain and diffuse map in place. -/
theorem load_no_rebuild_app :
    (load_op rtC stN somePath).state.specular = stN.specular ∧
    (load_op rtC stN somePath).state.diffuse = stN.diffuse := by
  exact (load_no_rebuild rtC somePath).1 stN (load_op rtC stN somePath).state
    (load_op rtC stN somePath).err rfl

/-- Counterexample to C5 as stated: after a successful load the stored
chain is still the one derived from the old base - rebuilding from the
state load returned yields a different chain, so the derived state does
not reflect the newly loaded base on return from load. -/
theorem load_leaves_stale_mips :
    (load_op rtC stN somePath).err = none ∧
    (load_op rtC stN somePath).state.base.data = (⟨16, 5⟩ : Cubemap Nat) ∧
    (load_op rtC stN somePath).state.specular = chainN ∧
    (build_mips_op rtC (load_op rtC stN somePath).state cutoff_default).state.specular ≠
      chainN := by
  have hload : load_op rtC stN somePath =
      ⟨{ stN with base_image := some 5, base := ⟨⟨16, 5⟩, false⟩ }, none⟩ := by
    simp [load_op, rtC, stN, cfgN]
  have hchain : mipChain rtC (⟨16, 5⟩ : Cubemap Nat) (4 : Nat) =
      [⟨16, 5⟩, ⟨8, 5⟩, ⟨4, 5⟩] := by
    rw [mipChain, mipChain, mipChain, mipChain]
    rfl
  have hbuild : (build_mips_op rtC
      { stN with base_image := some 5, base := ⟨⟨16, 5⟩, false⟩ }
      cutoff_default).state.specular = [⟨16, 6⟩, ⟨8, 6⟩, ⟨4, 6⟩] := by
    simp only [build_mips_op, stN, cfgN, hchain]
    norm_num [specFilter, rtC, mip_roughness]
  refine ⟨by rw [hload], ?_, ?_, ?_⟩
  · rw [hload]
  · rw [hload]
    rfl
  · rw [hload, hbuild]
    decide

/-- C6 (amended: only a decode failure leaves the state untouched; a
failure inside the latlong-to-cubemap projection happens after the cached
base_image has already been replaced, so load is not atomic - the base
parameter, chain and diffuse map are still untouched, but base_image is
not). -/
theorem load_partial_atomicity (rt : Runtime D I V O) (st : State D I) (p : String) :
    (rt.imread p = none → load_op rt st p = ⟨st, some Err.decodeError⟩) ∧
    (∀ (img : I) (f : Bool) (bi : I), rt.imread p = some (img, f) →
      bi = rt.smul st.cfg.scale (if f then img else rt.convert img) →
      rt.latlong_to_cubemap bi st.cfg.max_res = none →
      load_op rt st p = ⟨{ st with base_image := some bi }, some Err.projectionError⟩) := by
  constructor
  · intro h
    simp only [load_op, h]
  · intro img f bi h1 h2 h3
    subst h2
    simp only [load_op, h1, h3]

/-- Witness for C6: a concrete load whose decode succeeds and whose
projection fails replaces base_image and raises. -/
theorem load_partial_atomicity_app :
    load_op rtC6 { stN with base_image := some (0 : Nat) } somePath =
      ⟨{ stN with base_image := some (5 : Nat) }, some Err.projectionError⟩ := by
  exact (load_partial_atomicity rtC6 { stN with base_image := some (0 : Nat) }
    somePath).2 5 true 5 rfl rfl rfl

/-- Counterexample to C6 as stated: when the projection stage of load
fails, the prior state is not left untouched - the cached base_image has
already been overwritten by the newly decoded image. -/
theorem load_projection_failure_mutates :
    (load_op rtC6 { stN with base_image := some (0 : Nat) } somePath).err =
      some Err.projectionError ∧
    (load_op rtC6 { stN with base_image := some (0 : Nat) } somePath).state.base_image ≠
      ({ stN with base_image := some (0 : Nat) } : State Nat Nat).base_image := by
  constructor
  · simp [load_op, rtC6, rtC, stN, cfgN]
  · simp [load_op, rtC6, rtC, stN, cfgN]

/-- C7 (amended: update_light does not recompute the latlong cache - it
reads the already cached base_image, set by a prior load or an explicit
gen_base_image call, and raises AttributeError when it is absent; when
present it rolls the cache along the azimuth axis by delta, re-projects
at max_res and replaces the base data, leaving the chain and diffuse map
unchanged). -/
theorem update_light_behavior (rt : Runtime D I V O) (st : State D I) (delta : ℤ) :
    (st.base_image = none →
      update_light_op rt st delta = ⟨st, some Err.attributeError⟩) ∧
    (∀ img : I, st.base_image = some img →
      (rt.latlong_to_cubemap (rt.roll img delta) st.cfg.max_res = none →
        update_light_op rt st delta =
          ⟨{ st with base_image := some (rt.roll img delta) },
            some Err.projectionError⟩) ∧
      (∀ c, rt.latlong_to_cubemap (rt.roll img delta) st.cfg.max_res = some c →
        update_light_op rt st delta =
          ⟨{ st with base_image := some (rt.roll img delta),
                     base := { st.base with data := c } }, none⟩)) := by
  constructor
  · intro h
    simp only [update_light_op, h]
  · intro img h
    constructor
    · intro hproj
      simp only [update_light_op, h, hproj]
    · intro c hproj
      simp only [update_light_op, h, hproj]

/-- Witness for C7: with a cached latlong image 7 and delta 3, the cache
is rolled to 8, re-projected at resolution 16 and stored as the new base
data, with the chain and diffuse map untouched. -/
theorem update_light_behavior_app :
    update_light_op rtC { stN with base_image := some (7 : Nat) } 3 =
      ⟨{ stN with base_image := some (8 : Nat),
                  base := ⟨⟨16, 8⟩, false⟩ }, none⟩ := by
  exact ((update_light_behavior rtC { stN with base_image := some (7 : Nat) } 3).2
    7 rfl).2 ⟨16, 8⟩ rfl

/-- Counterexample to C7 as stated: on a state whose latlong cache was
never assigned, update_light does not recompute it from the current base;
it raises AttributeError and leaves the state, in particular the base
parameter, unchanged. -/
theorem update_light_missing_cache_fails :
    stN.base_image = none ∧
    (update_light_op rtC stN 3).err = some Err.attributeError ∧
    (update_light_op rtC stN 3).state = stN := by
  refine ⟨rfl, ?_, ?_⟩
  · simp [update_light_op, stN]
  · simp [update_light_op, stN]

/-- One method call keeps the configuration, keeps the requires_grad flag
of the base parameter (all replacements go through .data), and either
keeps the base face resolution or sets it to the configured max_res. -/
theorem envOpRun_preserves_base (rt : Runtime D I V O) (st : State D I) (op : EnvOp) :
    (envOpRun rt st op).cfg = st.cfg ∧
    (envOpRun rt st op).base.requires_grad = st.base.requires_grad ∧
    ((envOpRun rt st op).base.data.res = st.base.data.res ∨
     (envOpRun rt st op).base.data.res = st.cfg.max_res) := by
  cases op with
  | load p =>
    rw [envOpRun]
    rcases him : rt.imread p with _ | ⟨img, f⟩
    · simp [load_op, him]
    · rcases hll : rt.latlong_to_cubemap
          (rt.smul st.cfg.scale (if f then img else rt.convert img))
          st.cfg.max_res with _ | c
      · simp [load_op, him, hll]
      · have hres := rt.latlong_res _ _ _ hll
        simp [load_op, him, hll, hres]
  | update delta =>
    rw [envOpRun]
    rcases hbi : st.base_image with _ | img
    · simp [update_light_op, hbi]
    · rcases hll : rt.latlong_to_cubemap (rt.roll img delta) st.cfg.max_res with _ | c
      · simp [update_light_op, hbi, hll]
      · have hres := rt.latlong_res _ _ _ hll
        simp [update_light_op, hbi, hll, hres]
  | build cut =>
    rw [envOpRun]
    have hb := build_mips_base rt st cut
    rw [hb.1, hb.2.1]
    simp

/-- Running a sequence of method calls preserves the configuration, the
requires_grad flag and the base face resolution invariant. -/
theorem envOpsRun_preserves_base (rt : Runtime D I V O) (cfg : Config)
    (ops : List EnvOp) :
    ∀ st : State D I, st.cfg = cfg → st.base.requires_grad = cfg.trainable →
      st.base.data.res = cfg.max_res →
      (envOpsRun rt st ops).cfg = cfg ∧
      (envOpsRun rt st ops).base.requires_grad = cfg.trainable ∧
      (envOpsRun rt st ops).base.data.res = cfg.max_res := by
  induction ops with
  | nil =>
    intro st h1 h2 h3
    exact ⟨h1, h2, h3⟩
  | cons op rest ih =>
    intro st h1 h2 h3
    have hstep := envOpRun_preserves_base rt st op
    rw [envOpsRun]
    apply ih
    · rw [hstep.1, h1]
    · rw [hstep.2.1, h2]
    · rcases hstep.2.2 with h | h
      · rw [h, h3]
      · rw [h, h1]

/-- The state right after the constructor satisfies the base invariant. -/
theorem init_op_base (rt : Runtime D I V O) (cfg : Config) (path : Option String)
    (preset : Option ℚ) :
    (init_op rt cfg path preset).state.cfg = cfg ∧
    (init_op rt cfg path preset).state.base.requires_grad = cfg.trainable ∧
    (init_op rt cfg path preset).state.base.data.res = cfg.max_res := by
  have hinit : (init_state rt cfg preset : State D I).cfg = cfg ∧
      (init_state rt cfg preset : State D I).base.requires_grad = cfg.trainable ∧
      (init_state rt cfg preset : State D I).base.data.res = cfg.max_res := by
    refine ⟨rfl, rfl, ?_⟩
    rcases preset with _ | v
    · exact rt.rand_res _ _ _
    · exact rt.full_res _ _
  cases path with
  | none =>
    rw [init_op]
    have hb := build_mips_base rt (init_state rt cfg preset) cutoff_default
    rw [hb.1, hb.2.1]
    exact hinit
  | some p =>
    have hl := envOpRun_preserves_base rt (init_state rt cfg preset) (EnvOp.load p)
    rw [envOpRun] at hl
    rcases hload : load_op rt (init_state rt cfg preset) p with ⟨st1, e⟩
    rw [hload] at hl
    have hst1 : st1.cfg = cfg ∧ st1.base.requires_grad = cfg.trainable ∧
        st1.base.data.res = cfg.max_res := by
      refine ⟨by rw [hl.1, hinit.1], by rw [hl.2.1, hinit.2.1], ?_⟩
      rcases hl.2.2 with h | h
      · rw [h, hinit.2.2]
      · rw [h, hinit.1]
    cases e with
    | none =>
      simp only [init_op, hload]
      have hb := build_mips_base rt st1 cutoff_default
      rw [hb.1, hb.2.1]
      exact hst1
    | some er =>
      simp only [init_op, hload]
      exact hst1

/-- C9: along any sequence of load, update_light and build_mips calls on
a constructed EnvLight, the base parameter keeps requires_grad equal to
the trainable flag and keeps face resolution max_res (all replacements go
through .data of the same parameter), and the configuration never
changes. -/
theorem base_param_stable (rt : Runtime D I V O) (cfg : Config)
    (path : Option String) (preset : Option ℚ) (ops : List EnvOp) :
    (envOpsRun rt (init_op rt cfg path preset).state ops).cfg = cfg ∧
    (envOpsRun rt (init_op rt cfg path preset).state ops).base.requires_grad =
      cfg.trainable ∧
    (envOpsRun rt (init_op rt cfg path preset).state ops).base.data.res =
      cfg.max_res := by
  have hinit := init_op_base rt cfg path preset
  exact envOpsRun_preserves_base rt cfg ops _ hinit.1 hinit.2.1 hinit.2.2

/-- build_mips always assigns the diffuse map, even on the
ZeroDivisionError path (the assignment precedes the failing loop). -/
theorem build_mips_diffuse_isSome (rt : Runtime D I V O) (st : State D I) (cut : ℚ) :
    ((build_mips_op rt st cut).state.diffuse).isSome = true := by
  rw [build_mips_op]
  split
  · rfl
  · rfl

/-- The only exception build_mips can raise is the ZeroDivisionError of a
two level chain. -/
theorem build_mips_err (rt : Runtime D I V O) (st : State D I) (cut : ℚ) :
    (build_mips_op rt st cut).err =
      (if (mipChain rt st.base.data st.cfg.min_res).length = 2
       then some Err.zeroDivision else none) := by
  rw [build_mips_op]
  split
  · rfl
  · rfl

/-- C10 (amended: with roughness None the query always fails with the
TypeError raised when get_mip compares None against max_roughness, and no
specular texture lookup is performed; but the diffuse texture lookup
inside __call__ has already run by then, so the failure is before any
specular lookup, not before any texture lookup at all;
_forward_specular itself fails before its own texture lookup, and its
None-guard never makes a None roughness succeed).  The side conditions
only rule out the failures that precede get_mip: a never-assigned diffuse
map for the non trainable path, and a two level chain for the trainable
rebuild. -/
theorem roughness_none_type_error (rt : Runtime D I V O) (st : State D I)
    (n refl l : V)
    (hd : st.cfg.trainable = false → st.diffuse.isSome = true)
    (hm : st.cfg.trainable = true →
      (mipChain rt st.base.data st.cfg.min_res).length ≠ 2) :
    (call_op rt st n refl none).err = some Err.typeError ∧
    (call_op rt st n refl none).output = none ∧
    (call_op rt st n refl none).events = [TexEvent.diffuseTex] ∧
    forward_specular rt st l none = (Except.error Err.typeError, []) := by
  have hfs : ∀ st2 : State D I, forward_specular rt st2 refl none =
      (Except.error Err.typeError, []) := fun _ => rfl
  cases ht : st.cfg.trainable with
  | false =>
    obtain ⟨dm, hdm⟩ := Option.isSome_iff_exists.mp (hd ht)
    rw [call_op_of_not_trainable rt st ht n refl none]
    have hfd : forward_diffuse rt st n = (Except.ok (rt.texture_d dm n),
        [TexEvent.diffuseTex]) := by
      rw [forward_diffuse, hdm]
    rw [hfd, hfs st]
    exact ⟨rfl, rfl, rfl, rfl⟩
  | true =>
    have herr : (build_mips_op rt st cutoff_default).err = none := by
      rw [build_mips_err, if_neg (hm ht)]
    obtain ⟨dm, hdm⟩ := Option.isSome_iff_exists.mp
      (build_mips_diffuse_isSome rt st cutoff_default)
    have hfd : forward_diffuse rt (build_mips_op rt st cutoff_default).state n =
        (Except.ok (rt.texture_d dm n), [TexEvent.diffuseTex]) := by
      rw [forward_diffuse, hdm]
    simp only [call_op, ht, if_true, herr, hfd,
      hfs (build_mips_op rt st cutoff_default).state]
    simp
    rfl

/-- Witness for C10 at the concrete non trainable state: the query with
missing roughness raises TypeError. -/
theorem roughness_none_type_error_app :
    (call_op rtC stN () () none).err = some Err.typeError := by
  exact (roughness_none_type_error rtC stN () () () (fun _ => rfl)
    (fun h => Bool.noConfusion h)).1

/-- Counterexample to C10 as stated: with roughness None the call fails
with TypeError, but not before any texture lookup - the event list of the
failing call already contains the diffuse lookup. -/
theorem roughness_none_after_diffuse_lookup :
    (call_op rtC stN () () none).err = some Err.typeError ∧
    (call_op rtC stN () () none).events = [TexEvent.diffuseTex] ∧
    (call_op rtC stN () () none).events ≠ [] := by
  refine ⟨rfl, rfl, by decide⟩

/-- C8 (amended: the constructor passes no scale and bias, so the
defaults scale = 0 and bias = 0.5 of create_trainable_env_rnd apply, and
every texel of the initial base then equals bias exactly; only for a
positive scale does every texel lie in the half open interval from bias
to bias + scale, given a uniform generator with values in [0, 1)). -/
theorem create_env_rnd_value_range (rt : Runtime D I V O) {ι : Type} (u : ι → ℚ)
    (i : ι) (scale bias : ℚ) (cfg : Config)
    (h0 : 0 ≤ u i) (h1 : u i < 1) :
    (0 < scale → bias ≤ create_trainable_env_rnd u scale bias i ∧
      create_trainable_env_rnd u scale bias i < bias + scale) ∧
    create_trainable_env_rnd u rnd_default_scale rnd_default_bias i =
      rnd_default_bias ∧
    (init_op rt cfg none none).state.base.data =
      rt.rand_cubemap cfg.max_res rnd_default_scale rnd_default_bias := by
  refine ⟨?_, ?_, ?_⟩
  · intro hs
    constructor
    · have := mul_nonneg h0 hs.le
      simp only [create_trainable_env_rnd]
      linarith
    · have := mul_lt_mul_of_pos_right h1 hs
      simp only [create_trainable_env_rnd]
      linarith
  · simp [create_trainable_env_rnd, rnd_default_scale, rnd_default_bias]
  · rw [init_op]
    rw [(build_mips_base rt (init_state rt cfg none) cutoff_default).1]
    rfl

/-- Witness for C8: a legitimate uniform sample 0.3 yields the texel 0.5
under the constructor's default scale and bias. -/
theorem create_env_rnd_value_range_app :
    create_trainable_env_rnd (fun _ : Unit => (3/10 : ℚ)) rnd_default_scale
      rnd_default_bias () = rnd_default_bias := by
  exact (create_env_rnd_value_range rtC (fun _ : Unit => (3/10 : ℚ)) () 1 0 cfgN
    (by norm_num) (by norm_num)).2.1

/-- Counterexample to C8 as stated: with the defaults the constructor
actually uses (scale = 0, bias = 0.5) every texel equals 0.5 exactly, and
the half open interval from bias to bias + scale is empty, so the texel
does not lie in it, even for a legitimate uniform sample 0.3 in [0, 1). -/
theorem create_env_rnd_default_empty_interval :
    (0 : ℚ) ≤ 3/10 ∧ (3/10 : ℚ) < 1 ∧
    create_trainable_env_rnd (fun _ : Unit => (3/10 : ℚ)) rnd_default_scale
      rnd_default_bias () = 1/2 ∧
    ¬ create_trainable_env_rnd (fun _ : Unit => (3/10 : ℚ)) rnd_default_scale
        rnd_default_bias () < rnd_default_bias + rnd_default_scale := by
  refine ⟨by norm_num, by norm_num, ?_, ?_⟩
  · norm_num [create_trainable_env_rnd, rnd_default_scale, rnd_default_bias]
  · norm_num [create_trainable_env_rnd, rnd_default_scale, rnd_default_bias]

end EnvLight
